import Mathlib

/-!
Verification of the ReddyFit Express API core (src/server.js) against its
natural-language specification.

The embedding models the two persisted tables (`user_profiles`,
`onboarding_responses`) as lists of records inside a `DB` state, and each
route handler of server.js as a pure function from a request and a `DB`
state to a response and a new `DB` state.  The store clock (`GETUTCDATE()`)
is modelled as a `now` component of the state that the handlers read but do
not advance.
-/

namespace ReddyFit

/-! ## JSON serialization of the feature-interest sequence

server.js stores `feature_interest` with `JSON.stringify(feature_interest || [])`
(lines 338 and 367).  `escChar` reproduces JSON.stringify's escaping of a
single character of a string element: quote and backslash get a two-character
escape, the five named control characters get their short escapes, every
other control character below U+0020 becomes a lowercase \u00xx escape, and
all remaining characters are emitted verbatim. -/

def hexDigit (n : Nat) : Char :=
  if n < 10 then Char.ofNat (48 + n) else Char.ofNat (87 + n)

def hexVal (c : Char) : Option Nat :=
  if 48 ≤ c.toNat ∧ c.toNat ≤ 57 then some (c.toNat - 48)
  else if 97 ≤ c.toNat ∧ c.toNat ≤ 102 then some (c.toNat - 87)
  else if 65 ≤ c.toNat ∧ c.toNat ≤ 70 then some (c.toNat - 55)
  else none

def escChar (c : Char) : List Char :=
  if c = '"' then ['\\', '"']
  else if c = '\\' then ['\\', '\\']
  else if c.toNat = 8 then ['\\', 'b']
  else if c.toNat = 9 then ['\\', 't']
  else if c.toNat = 10 then ['\\', 'n']
  else if c.toNat = 12 then ['\\', 'f']
  else if c.toNat = 13 then ['\\', 'r']
  else if c.toNat < 32 then
    ['\\', 'u', '0', '0', hexDigit (c.toNat / 16), hexDigit (c.toNat % 16)]
  else [c]

def escString : List Char → List Char
  | [] => []
  | c :: cs => escChar c ++ escString cs

/-- JSON encoding of one string element, as produced by JSON.stringify. -/
def encString (s : String) : List Char := '"' :: (escString s.data ++ ['"'])

/-- Comma-separated encodings of the elements of a string array. -/
def encItems : List String → List Char
  | [] => []
  | [s] => encString s
  | s :: rest => encString s ++ ',' :: encItems rest

/-- JSON encoding of a string array, as produced by JSON.stringify (no
whitespace, square brackets). -/
def encodeList (l : List String) : List Char := '[' :: (encItems l ++ [']'])

/-- The text stored in the `feature_interest` column by both branches of
POST /api/onboarding: `JSON.stringify(feature_interest || [])`.  An omitted
field (`none`) is replaced by the empty array before encoding. -/
def serializeFeatureInterest (fi : Option (List String)) : String :=
  String.mk (encodeList (fi.getD []))

/-! Decoding.  Modelled from the spec: the spec requires the serialized
feature-interest text to be "deserialized back to an ordered sequence of
strings on read", with the decode side confined to the storage
adapter/consumer; server.js itself returns the stored text verbatim, so the
decoder is not part of src/.  The functions below parse exactly the JSON
string-array format. -/

def unescapeSimple (c : Char) : Option Char :=
  if c = '"' then some '"'
  else if c = '\\' then some '\\'
  else if c = '/' then some '/'
  else if c = 'b' then some (Char.ofNat 8)
  else if c = 'f' then some (Char.ofNat 12)
  else if c = 'n' then some (Char.ofNat 10)
  else if c = 'r' then some (Char.ofNat 13)
  else if c = 't' then some (Char.ofNat 9)
  else none

/-- Parse the body of a JSON string (after the opening quote) up to and
including the closing quote; return the decoded characters and the rest of
the input.  The fuel bounds the number of decoded characters. -/
def parseSB : Nat → List Char → Option (List Char × List Char)
  | 0, _ => none
  | _ + 1, [] => none
  | fuel + 1, c :: rest =>
    if c = '"' then some ([], rest)
    else if c = '\\' then
      match rest with
      | [] => none
      | e :: r =>
        if e = 'u' then
          match r with
          | h1 :: h2 :: h3 :: h4 :: r2 =>
            match hexVal h1, hexVal h2, hexVal h3, hexVal h4 with
            | some a, some b, some c2, some d =>
              (parseSB fuel r2).map
                (fun p => (Char.ofNat (((a * 16 + b) * 16 + c2) * 16 + d) :: p.1, p.2))
            | _, _, _, _ => none
          | _ => none
        else
          match unescapeSimple e with
          | some d => (parseSB fuel r).map (fun p => (d :: p.1, p.2))
          | none => none
    else (parseSB fuel rest).map (fun p => (c :: p.1, p.2))

/-- Parse one JSON string literal (opening quote included). -/
def parseString (l : List Char) : Option (String × List Char) :=
  match l with
  | [] => none
  | c :: rest =>
    if c = '"' then (parseSB rest.length rest).map (fun p => (String.mk p.1, p.2))
    else none

/-- Parse a non-empty comma-separated sequence of string literals terminated
by a closing bracket.  The fuel bounds the number of elements. -/
def parseItems : Nat → List Char → Option (List String × List Char)
  | 0, _ => none
  | fuel + 1, l =>
    match parseString l with
    | none => none
    | some (s, r) =>
      match r with
      | [] => none
      | c :: r2 =>
        if c = ',' then
          match parseItems fuel r2 with
          | some (ss, r3) => some (s :: ss, r3)
          | none => none
        else if c = ']' then some ([s], r2)
        else none

/-- Modelled from the spec: decode-on-read of the stored feature-interest
text back into an ordered sequence of strings (the read-side deserializer is
not part of server.js). -/
def decodeFeatureInterest (s : String) : Option (List String) :=
  match s.data with
  | [] => none
  | c :: rest =>
    if c = '[' then
      if rest = [']'] then some []
      else
        match parseItems rest.length rest with
        | some (l, []) => some l
        | _ => none
    else none

/-! ## Data model

One row of `user_profiles` and one row of `onboarding_responses`
(DEPLOYMENT_SUCCESS.md lists the columns; the INSERT in POST
/api/users/profile leaves `onboarding_completed` and `created_at` to their
store defaults: flag off, creation time). -/

structure UserProfile where
  id : Nat
  email : String
  firebase_uid : Option String
  full_name : Option String
  gender : Option String
  avatar_url : Option String
  onboarding_completed : Bool
  created_at : Nat
  updated_at : Nat
deriving Repr, DecidableEq

structure OnboardingResponse where
  id : Nat
  user_id : Nat
  fitness_goal : Option String
  current_fitness_level : Option String
  workout_frequency : Option String
  diet_preference : Option String
  motivation : Option String
  biggest_challenge : Option String
  how_found_us : Option String
  feature_interest : String
  willing_to_pay : Option String
  price_range : Option String
deriving Repr, DecidableEq

/-- The persistent store: the two tables, fresh-id counters for the
store-generated row ids, and the store clock read by `GETUTCDATE()`. -/
structure DB where
  profiles : List UserProfile
  onboardings : List OnboardingResponse
  nextProfileId : Nat
  nextOnboardingId : Nat
  now : Nat
deriving Repr, DecidableEq

/-- Truthiness of an optional string request field, as tested by
`if (!email)` in server.js: absent and empty are both falsy. -/
def jsStrFalsy : Option String → Bool
  | none => true
  | some s => s == ""

/-- A JavaScript value as it matters for the `completed ? 1 : 0` coercion in
PUT /api/users/onboarding-status. -/
inductive JsValue where
  | undef
  | nullv
  | boolean (b : Bool)
  | str (s : String)
  | num (n : Int)
deriving Repr, DecidableEq

def JsValue.truthy : JsValue → Bool
  | .undef => false
  | .nullv => false
  | .boolean b => b
  | .str s => !(s == "")
  | .num n => !(n == 0)

/-- A `WHERE email = @email` comparison with an optional parameter: binding
an absent field sends SQL NULL, and `email = NULL` matches no row. -/
def sqlEmailMatch (rowEmail : String) (param : Option String) : Bool :=
  match param with
  | none => false
  | some v => rowEmail == v

/-! ## POST /api/users/profile (server.js lines 194-253) -/

structure ProfileRequest where
  email : Option String
  firebase_uid : Option String
  full_name : Option String
  gender : Option String
  avatar_url : Option String
deriving Repr, DecidableEq

/-- Response of the profile upsert: `err status error` for the 400/500
paths, `ok status message id` for the 200 update / 201 create paths. -/
inductive UpsertResp where
  | err (status : Nat) (error : String)
  | ok (status : Nat) (message : String) (id : Nat)
deriving Repr, DecidableEq

def upsertProfile (req : ProfileRequest) (st : DB) : UpsertResp × DB :=
  if jsStrFalsy req.email then (.err 400 "Email is required", st)
  else
    let email := req.email.getD ""
    match st.profiles.find? (fun p => p.email == email) with
    | some existing =>
      let profiles := st.profiles.map fun p =>
        if p.email == email then
          { p with
              firebase_uid := req.firebase_uid
              full_name := req.full_name
              gender := req.gender
              avatar_url := req.avatar_url
              updated_at := st.now }
        else p
      (.ok 200 "Profile updated" existing.id, { st with profiles := profiles })
    | none =>
      let newProfile : UserProfile :=
        { id := st.nextProfileId
          email := email
          firebase_uid := req.firebase_uid
          full_name := req.full_name
          gender := req.gender
          avatar_url := req.avatar_url
          onboarding_completed := false
          created_at := st.now
          updated_at := st.now }
      (.ok 201 "Profile created" st.nextProfileId,
       { st with
           profiles := st.profiles ++ [newProfile]
           nextProfileId := st.nextProfileId + 1 })

/-! ## PUT /api/users/onboarding-status (server.js lines 256-278) -/

structure StatusRequest where
  email : Option String
  completed : JsValue
deriving Repr, DecidableEq

inductive StatusResp where
  | err (status : Nat) (error : String)
  | ok (message : String)
deriving Repr, DecidableEq

def updateOnboardingStatus (req : StatusRequest) (st : DB) : StatusResp × DB :=
  let bit := req.completed.truthy
  let profiles := st.profiles.map fun p =>
    if sqlEmailMatch p.email req.email then
      { p with onboarding_completed := bit, updated_at := st.now }
    else p
  (.ok "Onboarding status updated", { st with profiles := profiles })

/-! ## POST /api/onboarding (server.js lines 285-403) -/

structure OnboardingRequest where
  email : Option String
  fitness_goal : Option String
  current_fitness_level : Option String
  workout_frequency : Option String
  diet_preference : Option String
  motivation : Option String
  biggest_challenge : Option String
  how_found_us : Option String
  feature_interest : Option (List String)
  willing_to_pay : Option String
  price_range : Option String
deriving Repr, DecidableEq

/-- The four response sites of the handler: 400 validation, 404 user not
found, 500 store failure (body carries `success: false`), and the success
body `{message, success: true}`. -/
inductive OnboardResp where
  | validationErr (status : Nat) (error : String)
  | notFound (status : Nat) (error : String)
  | storeFail (status : Nat) (error : String) (success : Bool)
  | saved (message : String) (success : Bool)
deriving Repr, DecidableEq

/-- The UPDATE branch of the answer reconciliation: overwrite every answer
column of a row, keeping its id and user_id. -/
def answersOf (req : OnboardingRequest) (o : OnboardingResponse) : OnboardingResponse :=
  { o with
      fitness_goal := req.fitness_goal
      current_fitness_level := req.current_fitness_level
      workout_frequency := req.workout_frequency
      diet_preference := req.diet_preference
      motivation := req.motivation
      biggest_challenge := req.biggest_challenge
      how_found_us := req.how_found_us
      feature_interest := serializeFeatureInterest req.feature_interest
      willing_to_pay := req.willing_to_pay
      price_range := req.price_range }

/-- POST /api/onboarding with an explicit failure oracle for its three
store-write phases (the spec's step 1 resolve / step 2 reconcile / step 3
mark-complete).  A `true` flag makes the corresponding store statement
throw, which the handler's catch turns into the 500 response, leaving
whatever was already written in place. -/
def submitOnboardingF (failResolve failReconcile failComplete : Bool)
    (req : OnboardingRequest) (st : DB) : OnboardResp × DB :=
  if jsStrFalsy req.email then (.validationErr 400 "Email is required", st)
  else if failResolve then (.storeFail 500 "Failed to save onboarding response" false, st)
  else
    let email := req.email.getD ""
    match st.profiles.find? (fun p => p.email == email) with
    | none => (.notFound 404 "User not found. Please sign in first.", st)
    | some user =>
      if failReconcile then (.storeFail 500 "Failed to save onboarding response" false, st)
      else
        let st1 :=
          match st.onboardings.find? (fun o => o.user_id == user.id) with
          | some _ =>
            { st with
                onboardings := st.onboardings.map fun o =>
                  if o.user_id == user.id then answersOf req o else o }
          | none =>
            { st with
                onboardings := st.onboardings ++
                  [{ id := st.nextOnboardingId
                     user_id := user.id
                     fitness_goal := req.fitness_goal
                     current_fitness_level := req.current_fitness_level
                     workout_frequency := req.workout_frequency
                     diet_preference := req.diet_preference
                     motivation := req.motivation
                     biggest_challenge := req.biggest_challenge
                     how_found_us := req.how_found_us
                     feature_interest := serializeFeatureInterest req.feature_interest
                     willing_to_pay := req.willing_to_pay
                     price_range := req.price_range }]
                nextOnboardingId := st.nextOnboardingId + 1 }
        if failComplete then
          (.storeFail 500 "Failed to save onboarding response" false, st1)
        else
          let st2 := { st1 with
            profiles := st1.profiles.map fun p =>
              if p.id == user.id then
                { p with onboarding_completed := true, updated_at := st1.now }
              else p }
          (.saved "Onboarding saved successfully" true, st2)

/-- POST /api/onboarding on the fault-free store. -/
def submitOnboarding (req : OnboardingRequest) (st : DB) : OnboardResp × DB :=
  submitOnboardingF false false false req st

/-! ## GET /api/users/all (server.js lines 130-159)

`SELECT up.*, orr.<answers> FROM user_profiles up LEFT JOIN
onboarding_responses orr ON up.id = orr.user_id ORDER BY up.created_at DESC`. -/

def insertByCreatedDesc (p : UserProfile) : List UserProfile → List UserProfile
  | [] => [p]
  | q :: rest =>
    if q.created_at ≤ p.created_at then p :: q :: rest
    else q :: insertByCreatedDesc p rest

def sortByCreatedDesc : List UserProfile → List UserProfile
  | [] => []
  | p :: rest => insertByCreatedDesc p (sortByCreatedDesc rest)

/-- The LEFT JOIN rows contributed by one profile: one row per matching
onboarding response, or a single row with NULL answer columns. -/
def leftJoinRow (st : DB) (p : UserProfile) : List (UserProfile × Option OnboardingResponse) :=
  match st.onboardings.filter (fun o => o.user_id == p.id) with
  | [] => [(p, none)]
  | os => os.map fun o => (p, some o)

def joinAll (st : DB) : List UserProfile → List (UserProfile × Option OnboardingResponse)
  | [] => []
  | p :: rest => leftJoinRow st p ++ joinAll st rest

/-- The listing read path: join of profiles with onboarding answers,
ordered by creation time descending. -/
def getAllUsers (st : DB) : List (UserProfile × Option OnboardingResponse) :=
  joinAll st (sortByCreatedDesc st.profiles)

/-- The row created by the INSERT branch of POST /api/users/profile for a
request whose email field holds `e`: the five supplied columns, with id,
completion flag and timestamps coming from the store. -/
def insertedProfile (req : ProfileRequest) (st : DB) (e : String) : UserProfile :=
  { id := st.nextProfileId, email := e, firebase_uid := req.firebase_uid,
    full_name := req.full_name, gender := req.gender, avatar_url := req.avatar_url,
    onboarding_completed := false, created_at := st.now, updated_at := st.now }

/-- The row created by the INSERT branch of POST /api/onboarding for the
resolved profile id `uid`. -/
def insertedOnboarding (req : OnboardingRequest) (st : DB) (uid : Nat) : OnboardingResponse :=
  { id := st.nextOnboardingId, user_id := uid,
    fitness_goal := req.fitness_goal,
    current_fitness_level := req.current_fitness_level,
    workout_frequency := req.workout_frequency,
    diet_preference := req.diet_preference,
    motivation := req.motivation,
    biggest_challenge := req.biggest_challenge,
    how_found_us := req.how_found_us,
    feature_interest := serializeFeatureInterest req.feature_interest,
    willing_to_pay := req.willing_to_pay,
    price_range := req.price_range }

/-- The UPDATE branch of POST /api/users/profile as a row transformer: the
row matching the email gets the four supplied columns and a fresh update
timestamp, every other row is untouched. -/
def applyProfileUpdate (req : ProfileRequest) (t : Nat) (e : String) (q : UserProfile) :
    UserProfile :=
  if q.email == e then
    { q with firebase_uid := req.firebase_uid, full_name := req.full_name,
             gender := req.gender, avatar_url := req.avatar_url, updated_at := t }
  else q

/-- The UPDATE branch of the onboarding reconciliation as a row
transformer: rows of the resolved profile get all answer columns
overwritten. -/
def applyOnbUpdate (req : OnboardingRequest) (uid : Nat) (o : OnboardingResponse) :
    OnboardingResponse :=
  if o.user_id == uid then answersOf req o else o

/-- The completion-flag UPDATE of POST /api/onboarding as a row
transformer. -/
def applyFlagUpdate (uid t : Nat) (p : UserProfile) : UserProfile :=
  if p.id == uid then { p with onboarding_completed := true, updated_at := t } else p

/-! ## Sample data used by the witness theorems -/

def dbEmpty : DB :=
  { profiles := [], onboardings := [], nextProfileId := 1, nextOnboardingId := 1, now := 10 }

def alice : UserProfile :=
  { id := 7, email := "alice@fit.io", firebase_uid := none, full_name := none,
    gender := none, avatar_url := none, onboarding_completed := false,
    created_at := 3, updated_at := 3 }

def dbAlice : DB :=
  { profiles := [alice], onboardings := [], nextProfileId := 8, nextOnboardingId := 1, now := 10 }

def onbAlice : OnboardingResponse :=
  { id := 2, user_id := 7, fitness_goal := some "Bulk", current_fitness_level := none,
    workout_frequency := none, diet_preference := none, motivation := none,
    biggest_challenge := none, how_found_us := none, feature_interest := "[]",
    willing_to_pay := none, price_range := none }

def dbAliceOnb : DB :=
  { profiles := [alice], onboardings := [onbAlice], nextProfileId := 8,
    nextOnboardingId := 3, now := 10 }

def reqProfAlice : ProfileRequest :=
  { email := some "alice@fit.io", firebase_uid := some "uid-1",
    full_name := some "Alice A", gender := some "female", avatar_url := none }

def reqOnbAlice : OnboardingRequest :=
  { email := some "alice@fit.io", fitness_goal := some "Weight Loss",
    current_fitness_level := none, workout_frequency := none,
    diet_preference := none, motivation := none, biggest_challenge := none,
    how_found_us := none, feature_interest := some ["AI Workout Plans", "Meal Plans"],
    willing_to_pay := none, price_range := none }

/-! ### Round-trip lemmas -/

theorem hexVal_hexDigit : ∀ n, n < 16 → hexVal (hexDigit n) = some n := by decide

theorem parseSB_plain (fuel : Nat) (c : Char) (tail : List Char)
    (h1 : ¬ c = '"') (h2 : ¬ c = '\\') :
    parseSB (fuel + 1) (c :: tail) = (parseSB fuel tail).map (fun p => (c :: p.1, p.2)) := by
  show (if c = '"' then some ([], tail)
    else if c = '\\' then
      match tail with
      | [] => none
      | e :: r =>
        if e = 'u' then
          match r with
          | h1 :: h2 :: h3 :: h4 :: r2 =>
            match hexVal h1, hexVal h2, hexVal h3, hexVal h4 with
            | some a, some b, some c2, some d =>
              (parseSB fuel r2).map
                (fun p => (Char.ofNat (((a * 16 + b) * 16 + c2) * 16 + d) :: p.1, p.2))
            | _, _, _, _ => none
          | _ => none
        else
          match unescapeSimple e with
          | some d => (parseSB fuel r).map (fun p => (d :: p.1, p.2))
          | none => none
    else (parseSB fuel tail).map (fun p => (c :: p.1, p.2))) =
      (parseSB fuel tail).map (fun p => (c :: p.1, p.2))
  rw [if_neg h1, if_neg h2]

theorem parseSB_u (fuel : Nat) (h1 h2 h3 h4 : Char) (r2 : List Char) (a b c2 d : Nat)
    (e1 : hexVal h1 = some a) (e2 : hexVal h2 = some b)
    (e3 : hexVal h3 = some c2) (e4 : hexVal h4 = some d) :
    parseSB (fuel + 1) ('\\' :: 'u' :: h1 :: h2 :: h3 :: h4 :: r2) =
      (parseSB fuel r2).map
        (fun p => (Char.ofNat (((a * 16 + b) * 16 + c2) * 16 + d) :: p.1, p.2)) := by
  show (match hexVal h1, hexVal h2, hexVal h3, hexVal h4 with
    | some a, some b, some c2, some d =>
      (parseSB fuel r2).map
        (fun (p : List Char × List Char) =>
          (Char.ofNat (((a * 16 + b) * 16 + c2) * 16 + d) :: p.1, p.2))
    | _, _, _, _ => none) = _
  rw [e1, e2, e3, e4]

theorem parseSB_escChar (fuel : Nat) (c : Char) (tail : List Char) :
    parseSB (fuel + 1) (escChar c ++ tail) =
      (parseSB fuel tail).map (fun p => (c :: p.1, p.2)) := by
  unfold escChar
  split_ifs with h1 h2 h3 h4 h5 h6 h7 h8
  · subst h1; rfl
  · subst h2; rfl
  · have hc : c = Char.ofNat 8 := by rw [← h3, Char.ofNat_toNat]
    subst hc; rfl
  · have hc : c = Char.ofNat 9 := by rw [← h4, Char.ofNat_toNat]
    subst hc; rfl
  · have hc : c = Char.ofNat 10 := by rw [← h5, Char.ofNat_toNat]
    subst hc; rfl
  · have hc : c = Char.ofNat 12 := by rw [← h6, Char.ofNat_toNat]
    subst hc; rfl
  · have hc : c = Char.ofNat 13 := by rw [← h7, Char.ofNat_toNat]
    subst hc; rfl
  · -- \u00xx escape for the remaining control characters
    have hdiv : c.toNat / 16 < 16 := by omega
    have hmod : c.toNat % 16 < 16 := by omega
    show parseSB (fuel + 1)
      ('\\' :: 'u' :: '0' :: '0' :: hexDigit (c.toNat / 16) :: hexDigit (c.toNat % 16) :: tail) = _
    rw [parseSB_u fuel '0' '0' (hexDigit (c.toNat / 16)) (hexDigit (c.toNat % 16)) tail
      0 0 (c.toNat / 16) (c.toNat % 16) (by decide) (by decide)
      (hexVal_hexDigit _ hdiv) (hexVal_hexDigit _ hmod)]
    have harith : ((0 * 16 + 0) * 16 + c.toNat / 16) * 16 + c.toNat % 16 = c.toNat := by omega
    simp only [harith, Char.ofNat_toNat]
  · -- ordinary character, emitted verbatim
    show parseSB (fuel + 1) (c :: tail) = _
    exact parseSB_plain fuel c tail h1 h2

theorem parseSB_escString (s : List Char) (tail : List Char) :
    ∀ fuel, s.length < fuel →
      parseSB fuel (escString s ++ '"' :: tail) = some (s, tail) := by
  induction s with
  | nil =>
    intro fuel hf
    match fuel, hf with
    | f + 1, _ => rfl
  | cons c cs ih =>
    intro fuel hf
    match fuel, hf with
    | f + 1, hf =>
      have hlt : cs.length < f := by
        simp only [List.length_cons] at hf; omega
      show parseSB (f + 1) ((escChar c ++ escString cs) ++ '"' :: tail) = _
      rw [List.append_assoc, parseSB_escChar, ih f hlt]
      rfl

theorem escChar_length_ge (c : Char) : 1 ≤ (escChar c).length := by
  unfold escChar
  split_ifs <;> simp

theorem escString_length_ge (s : List Char) : s.length ≤ (escString s).length := by
  induction s with
  | nil => exact Nat.le_refl 0
  | cons c cs ih =>
    have := escChar_length_ge c
    show cs.length + 1 ≤ (escChar c ++ escString cs).length
    simp only [List.length_append]
    omega

theorem parseString_cons (rest : List Char) :
    parseString ('"' :: rest) =
      (parseSB rest.length rest).map (fun p => (String.mk p.1, p.2)) := rfl

theorem parseString_encString (s : String) (tail : List Char) :
    parseString (encString s ++ tail) = some (s, tail) := by
  have hshape : encString s ++ tail = '"' :: (escString s.data ++ '"' :: tail) := by
    show ('"' :: (escString s.data ++ ['"'])) ++ tail = _
    simp
  rw [hshape, parseString_cons]
  have hfuel : s.data.length < (escString s.data ++ '"' :: tail).length := by
    have := escString_length_ge s.data
    simp only [List.length_append, List.length_cons]
    omega
  rw [parseSB_escString s.data tail _ hfuel]
  rfl

theorem parseItems_succ (fuel : Nat) (l : List Char) :
    parseItems (fuel + 1) l =
      match parseString l with
      | none => none
      | some (s, r) =>
        match r with
        | [] => none
        | c :: r2 =>
          if c = ',' then
            match parseItems fuel r2 with
            | some (ss, r3) => some (s :: ss, r3)
            | none => none
          else if c = ']' then some ([s], r2)
          else none := rfl

theorem parseItems_encItems (l : List String) (s : String) :
    ∀ fuel, l.length < fuel → ∀ tail : List Char,
      parseItems fuel (encItems (s :: l) ++ ']' :: tail) = some (s :: l, tail) := by
  induction l generalizing s with
  | nil =>
    intro fuel hf tail
    match fuel, hf with
    | f + 1, _ =>
      show parseItems (f + 1) (encString s ++ ']' :: tail) = _
      rw [parseItems_succ, parseString_encString]
      show (if (']' : Char) = ',' then
          match parseItems f tail with
          | some (ss, r3) => some (s :: ss, r3)
          | none => none
        else if (']' : Char) = ']' then some ([s], tail)
        else none) = _
      rw [if_neg (by decide), if_pos rfl]
  | cons s2 l2 ih =>
    intro fuel hf tail
    match fuel, hf with
    | f + 1, hf =>
      have hlt : l2.length < f := by
        simp only [List.length_cons] at hf; omega
      show parseItems (f + 1) ((encString s ++ ',' :: encItems (s2 :: l2)) ++ ']' :: tail) = _
      rw [List.append_assoc, parseItems_succ, parseString_encString]
      show (if (',' : Char) = ',' then
          match parseItems f (encItems (s2 :: l2) ++ ']' :: tail) with
          | some (ss, r3) => some (s :: ss, r3)
          | none => none
        else if (',' : Char) = ']' then some ([s], encItems (s2 :: l2) ++ ']' :: tail)
        else none) = _
      rw [if_pos rfl, ih s2 f hlt tail]

theorem encString_length_ge (s : String) : 2 ≤ (encString s).length := by
  show 2 ≤ ('"' :: (escString s.data ++ ['"'])).length
  simp

theorem encItems_length_ge : ∀ l : List String, l.length ≤ (encItems l).length
  | [] => Nat.le_refl 0
  | [s] => by
    have := encString_length_ge s
    show 1 ≤ (encString s).length
    omega
  | s :: s2 :: l2 => by
    have h1 := encString_length_ge s
    have h2 := encItems_length_ge (s2 :: l2)
    show (s2 :: l2).length + 1 ≤ (encString s ++ ',' :: encItems (s2 :: l2)).length
    simp only [List.length_append, List.length_cons] at h2 ⊢
    omega

/-- Round trip: decoding the stored text recovers exactly the submitted
sequence, with an omitted input decoding to the empty sequence. -/
theorem decode_serialize (fi : Option (List String)) :
    decodeFeatureInterest (serializeFeatureInterest fi) = some (fi.getD []) := by
  show decodeFeatureInterest (String.mk (encodeList (fi.getD []))) = _
  cases hl : fi.getD [] with
  | nil => rfl
  | cons s l =>
    show (if ('[' : Char) = '[' then
        if encItems (s :: l) ++ [']'] = [']'] then some []
        else
          match parseItems (encItems (s :: l) ++ [']']).length (encItems (s :: l) ++ [']']) with
          | some (l2, []) => some l2
          | _ => none
      else none) = some (s :: l)
    rw [if_pos rfl]
    have hlen := encItems_length_ge (s :: l)
    simp only [List.length_cons] at hlen
    have hne : encItems (s :: l) ++ [']'] ≠ [']'] := by
      intro h
      have h1 : (encItems (s :: l) ++ [']']).length = 1 := by rw [h]; rfl
      simp only [List.length_append, List.length_nil, List.length_cons] at h1
      omega
    rw [if_neg hne]
    have hfuel : l.length < (encItems (s :: l) ++ [']']).length := by
      simp only [List.length_append, List.length_nil, List.length_cons]
      omega
    have hshape : (encItems (s :: l) ++ ([']'] : List Char)) =
        encItems (s :: l) ++ ']' :: ([] : List Char) := rfl
    rw [hshape, parseItems_encItems l s _ hfuel []]

/-! ## List helper lemmas -/

theorem find?_append_none {α : Type} (p : α → Bool) (l1 l2 : List α)
    (h : l1.find? p = none) : (l1 ++ l2).find? p = l2.find? p := by
  rw [List.find?_append, h]
  rfl

theorem find?_map_comm {α : Type} (p : α → Bool) (f : α → α) (l : List α)
    (hf : ∀ a, p (f a) = p a) :
    (l.map f).find? p = (l.find? p).map f := by
  induction l with
  | nil => rfl
  | cons a t ih =>
    show ((f a :: t.map f).find? p) = _
    cases hp : p a with
    | true =>
      rw [List.find?_cons_of_pos _ (by rw [hf a, hp]), List.find?_cons_of_pos _ hp]
      rfl
    | false =>
      rw [List.find?_cons_of_neg _ (by rw [hf a, hp]; exact Bool.false_ne_true),
        List.find?_cons_of_neg _ (by rw [hp]; exact Bool.false_ne_true), ih]

theorem mem_insertByCreatedDesc {p q : UserProfile} {l : List UserProfile} :
    q ∈ insertByCreatedDesc p l ↔ q = p ∨ q ∈ l := by
  induction l with
  | nil => simp [insertByCreatedDesc]
  | cons a t ih =>
    show q ∈ (if a.created_at ≤ p.created_at then p :: a :: t
      else a :: insertByCreatedDesc p t) ↔ _
    split_ifs with h
    · simp
    · simp only [List.mem_cons, ih]
      tauto

theorem mem_sortByCreatedDesc {q : UserProfile} {l : List UserProfile} :
    q ∈ sortByCreatedDesc l ↔ q ∈ l := by
  induction l with
  | nil => exact Iff.rfl
  | cons a t ih =>
    show q ∈ insertByCreatedDesc a (sortByCreatedDesc t) ↔ _
    rw [mem_insertByCreatedDesc, ih]
    simp

theorem joinAll_mem_split {st : DB} {pr : UserProfile × Option OnboardingResponse}
    {l : List UserProfile} (h : pr ∈ joinAll st l) :
    ∃ q ∈ l, pr ∈ leftJoinRow st q := by
  induction l with
  | nil => cases h
  | cons a t ih =>
    rw [show joinAll st (a :: t) = leftJoinRow st a ++ joinAll st t from rfl,
      List.mem_append] at h
    rcases h with h | h
    · exact ⟨a, List.mem_cons_self a t, h⟩
    · obtain ⟨q, hq, hpr⟩ := ih h
      exact ⟨q, List.mem_cons_of_mem a hq, hpr⟩

theorem joinAll_mem_of {st : DB} {pr : UserProfile × Option OnboardingResponse}
    {q : UserProfile} {l : List UserProfile} (hq : q ∈ l) (hpr : pr ∈ leftJoinRow st q) :
    pr ∈ joinAll st l := by
  induction l with
  | nil => cases hq
  | cons a t ih =>
    rw [show joinAll st (a :: t) = leftJoinRow st a ++ joinAll st t from rfl,
      List.mem_append]
    rcases List.mem_cons.mp hq with rfl | hq
    · exact Or.inl hpr
    · exact Or.inr (ih hq)

/-! ## Branch equations for the handlers -/

theorem upsertProfile_insert_eq (req : ProfileRequest) (st : DB) (e : String)
    (he : req.email = some e) (hne : e ≠ "")
    (hfind : st.profiles.find? (fun p => p.email == e) = none) :
    upsertProfile req st =
      (.ok 201 "Profile created" st.nextProfileId,
       { st with
           profiles := st.profiles ++ [insertedProfile req st e],
           nextProfileId := st.nextProfileId + 1 }) := by
  simp [upsertProfile, jsStrFalsy, he, hne, hfind, insertedProfile]

theorem upsertProfile_update_eq (req : ProfileRequest) (st : DB) (e : String)
    (p0 : UserProfile) (he : req.email = some e) (hne : e ≠ "")
    (hfind : st.profiles.find? (fun p => p.email == e) = some p0) :
    upsertProfile req st =
      (.ok 200 "Profile updated" p0.id,
       { st with profiles := st.profiles.map (applyProfileUpdate req st.now e) }) := by
  simp [upsertProfile, jsStrFalsy, he, hne, hfind, applyProfileUpdate]

theorem submitOnboardingF_resolve_fail_eq (fc fm : Bool) (req : OnboardingRequest)
    (st : DB) (e : String) (he : req.email = some e) (hne : e ≠ "") :
    submitOnboardingF true fc fm req st =
      (.storeFail 500 "Failed to save onboarding response" false, st) := by
  simp [submitOnboardingF, jsStrFalsy, he, hne]

theorem submitOnboardingF_reconcile_fail_eq (fm : Bool) (req : OnboardingRequest)
    (st : DB) (e : String) (user : UserProfile)
    (he : req.email = some e) (hne : e ≠ "")
    (hp : st.profiles.find? (fun p => p.email == e) = some user) :
    submitOnboardingF false true fm req st =
      (.storeFail 500 "Failed to save onboarding response" false, st) := by
  simp [submitOnboardingF, jsStrFalsy, he, hne, hp]

theorem submitOnboardingF_update_eq (fm : Bool) (req : OnboardingRequest)
    (st : DB) (e : String) (user : UserProfile) (o0 : OnboardingResponse)
    (he : req.email = some e) (hne : e ≠ "")
    (hp : st.profiles.find? (fun p => p.email == e) = some user)
    (ho : st.onboardings.find? (fun o => o.user_id == user.id) = some o0) :
    submitOnboardingF false false fm req st =
      (if fm then (.storeFail 500 "Failed to save onboarding response" false,
        { st with onboardings := st.onboardings.map (applyOnbUpdate req user.id) })
       else
        (.saved "Onboarding saved successfully" true,
         { st with
             onboardings := st.onboardings.map (applyOnbUpdate req user.id)
             profiles := st.profiles.map (applyFlagUpdate user.id st.now) })) := by
  cases fm <;>
    simp [submitOnboardingF, jsStrFalsy, he, hne, hp, ho, applyOnbUpdate, applyFlagUpdate]

theorem submitOnboardingF_insert_eq (fm : Bool) (req : OnboardingRequest)
    (st : DB) (e : String) (user : UserProfile)
    (he : req.email = some e) (hne : e ≠ "")
    (hp : st.profiles.find? (fun p => p.email == e) = some user)
    (ho : st.onboardings.find? (fun o => o.user_id == user.id) = none) :
    submitOnboardingF false false fm req st =
      (if fm then (.storeFail 500 "Failed to save onboarding response" false,
        { st with
            onboardings := st.onboardings ++ [insertedOnboarding req st user.id]
            nextOnboardingId := st.nextOnboardingId + 1 })
       else
        (.saved "Onboarding saved successfully" true,
         { st with
             onboardings := st.onboardings ++ [insertedOnboarding req st user.id]
             nextOnboardingId := st.nextOnboardingId + 1
             profiles := st.profiles.map (applyFlagUpdate user.id st.now) })) := by
  cases fm <;>
    simp [submitOnboardingF, jsStrFalsy, he, hne, hp, ho, insertedOnboarding, applyFlagUpdate]

/-! ## Claim theorems -/

/-- C6: a profile upsert whose email is empty or omitted fails with the 400
"Email is required" validation response regardless of the other fields, and
returns the store unchanged: no row is inserted or updated. -/
theorem upsert_empty_email_rejected (req : ProfileRequest) (st : DB)
    (h : req.email = none ∨ req.email = some "") :
    upsertProfile req st = (.err 400 "Email is required", st) := by
  rcases h with h | h <;> simp [upsertProfile, jsStrFalsy, h]

theorem upsert_empty_email_rejected_witness :
    upsertProfile
      { email := some "", firebase_uid := some "u", full_name := some "X",
        gender := some "male", avatar_url := some "http" } dbEmpty =
      (.err 400 "Email is required", dbEmpty) :=
  upsert_empty_email_rejected _ dbEmpty (Or.inr rfl)

/-- C3: submitting onboarding for an email that matches no profile returns
the 404 "User not found. Please sign in first." response and performs no
write: the returned store equals the input store, so no onboarding row is
created and no profile is created or modified. -/
theorem submit_unknown_email_not_found (req : OnboardingRequest) (st : DB) (e : String)
    (he : req.email = some e) (hne : e ≠ "")
    (habs : ∀ p ∈ st.profiles, p.email ≠ e) :
    submitOnboarding req st = (.notFound 404 "User not found. Please sign in first.", st) := by
  have hfind : st.profiles.find? (fun p => p.email == e) = none :=
    List.find?_eq_none.mpr (fun p hp => by simpa using habs p hp)
  simp [submitOnboarding, submitOnboardingF, jsStrFalsy, he, hne, hfind]

theorem submit_unknown_email_not_found_witness :
    submitOnboarding reqOnbAlice dbEmpty =
      (.notFound 404 "User not found. Please sign in first.", dbEmpty) :=
  submit_unknown_email_not_found reqOnbAlice dbEmpty "alice@fit.io" rfl
    (by decide) (by simp [dbEmpty])

/-- C10: the onboarding-status route validates nothing and checks nothing:
whatever the request, it answers with the success message, coerces the
`completed` value by truthiness into the stored bit, refreshes the matched
rows' update timestamps, leaves unmatched rows and the onboarding table
untouched, and when the email field is absent (a NULL SQL parameter) it
matches zero rows and still reports success with the store unchanged. -/
theorem status_update_never_validates (req : StatusRequest) (st : DB) :
    (updateOnboardingStatus req st).1 = .ok "Onboarding status updated" ∧
    (req.email = none → (updateOnboardingStatus req st).2 = st) ∧
    ((updateOnboardingStatus req st).2).onboardings = st.onboardings ∧
    ((updateOnboardingStatus req st).2).profiles.length = st.profiles.length ∧
    (∀ i (hi : i < st.profiles.length)
        (hi2 : i < ((updateOnboardingStatus req st).2).profiles.length),
      (sqlEmailMatch (st.profiles.get ⟨i, hi⟩).email req.email = true →
        (((updateOnboardingStatus req st).2).profiles.get ⟨i, hi2⟩).onboarding_completed
            = req.completed.truthy ∧
        (((updateOnboardingStatus req st).2).profiles.get ⟨i, hi2⟩).updated_at = st.now) ∧
      (sqlEmailMatch (st.profiles.get ⟨i, hi⟩).email req.email = false →
        ((updateOnboardingStatus req st).2).profiles.get ⟨i, hi2⟩ = st.profiles.get ⟨i, hi⟩)) := by
  refine ⟨rfl, ?_, rfl, by simp [updateOnboardingStatus], ?_⟩
  · intro hmail
    show { st with profiles := st.profiles.map _ } = st
    have hmap : st.profiles.map
        (fun p => if sqlEmailMatch p.email req.email then
          { p with onboarding_completed := req.completed.truthy, updated_at := st.now }
         else p) = st.profiles := by
      rw [show (st.profiles.map
          (fun p => if sqlEmailMatch p.email req.email then
            { p with onboarding_completed := req.completed.truthy, updated_at := st.now }
           else p)) = st.profiles.map id from
        List.map_congr_left (fun a _ => by rw [hmail]; rfl), List.map_id]
    rw [hmap]
  · intro i hi hi2
    constructor
    · intro hm
      have : ((updateOnboardingStatus req st).2).profiles.get ⟨i, hi2⟩ =
          { st.profiles.get ⟨i, hi⟩ with
              onboarding_completed := req.completed.truthy, updated_at := st.now } := by
        simp only [updateOnboardingStatus, List.get_eq_getElem, List.getElem_map]
        rw [if_pos (by rw [List.get_eq_getElem] at hm; exact hm)]
      rw [this]
      exact ⟨rfl, rfl⟩
    · intro hm
      simp only [updateOnboardingStatus, List.get_eq_getElem, List.getElem_map]
      rw [if_neg (by rw [List.get_eq_getElem] at hm; rw [hm]; exact Bool.false_ne_true)]

theorem status_update_never_validates_witness :
    (updateOnboardingStatus { email := none, completed := .str "yes" } dbAlice).1 =
      .ok "Onboarding status updated" ∧
    (updateOnboardingStatus { email := none, completed := .str "yes" } dbAlice).2 = dbAlice :=
  ⟨(status_update_never_validates _ dbAlice).1,
   (status_update_never_validates _ dbAlice).2.1 rfl⟩

/-- The update branch of the profile upsert never changes the email column. -/
theorem applyProfileUpdate_email (req : ProfileRequest) (t : Nat) (e : String)
    (q : UserProfile) : (applyProfileUpdate req t e q).email = q.email := by
  unfold applyProfileUpdate
  split_ifs <;> rfl

/-- Applying the update branch of the profile upsert twice with the same
arguments equals applying it once. -/
theorem applyProfileUpdate_idem (req : ProfileRequest) (t : Nat) (e : String)
    (q : UserProfile) :
    applyProfileUpdate req t e (applyProfileUpdate req t e q) =
      applyProfileUpdate req t e q := by
  unfold applyProfileUpdate
  cases hc : q.email == e with
  | true => simp
  | false => simp [beq_eq_false_iff_ne.mp hc]

/-- The update branch fixes a row whose email differs from the target. -/
theorem applyProfileUpdate_of_ne (req : ProfileRequest) (t : Nat) (e : String)
    (q : UserProfile) (h : ¬ (q.email == e) = true) :
    applyProfileUpdate req t e q = q := by
  unfold applyProfileUpdate
  rw [if_neg h]

/-- The update branch fixes the row the create branch just inserted from
the identical request. -/
theorem applyProfileUpdate_insertedProfile (req : ProfileRequest) (st : DB) (e : String) :
    applyProfileUpdate req st.now e (insertedProfile req st e) = insertedProfile req st e := by
  unfold applyProfileUpdate insertedProfile
  rw [if_pos (by simp)]

/-- C2: upserting a never-seen email inserts exactly one row and answers
201 "Profile created" with the new id; a second call with the same email
takes the update path, answering 200 "Profile updated" with the same id,
inserts nothing, and leaves exactly one row for that email. -/
theorem upsert_create_then_update
    (req req2 : ProfileRequest) (st : DB) (e : String)
    (he : req.email = some e) (he2 : req2.email = some e) (hne : e ≠ "")
    (hfresh : ∀ p ∈ st.profiles, p.email ≠ e) :
    (upsertProfile req st).1 = .ok 201 "Profile created" st.nextProfileId ∧
    ((upsertProfile req st).2).profiles.length = st.profiles.length + 1 ∧
    ((upsertProfile req st).2).profiles.countP (fun p => p.email == e) = 1 ∧
    (upsertProfile req2 (upsertProfile req st).2).1 =
      .ok 200 "Profile updated" st.nextProfileId ∧
    ((upsertProfile req2 (upsertProfile req st).2).2).profiles.length =
      ((upsertProfile req st).2).profiles.length ∧
    ((upsertProfile req2 (upsertProfile req st).2).2).profiles.countP
      (fun p => p.email == e) = 1 := by
  have hfind : st.profiles.find? (fun p => p.email == e) = none :=
    List.find?_eq_none.mpr (fun p hp => by simpa using hfresh p hp)
  have hcount0 : st.profiles.countP (fun p => p.email == e) = 0 :=
    List.countP_eq_zero.mpr (fun p hp => by simpa using hfresh p hp)
  have hfst1 : (upsertProfile req st).1 = .ok 201 "Profile created" st.nextProfileId := by
    rw [upsertProfile_insert_eq req st e he hne hfind]
  have hsnd1 : (upsertProfile req st).2 =
      { st with profiles := st.profiles ++ [insertedProfile req st e],
                nextProfileId := st.nextProfileId + 1 } := by
    rw [upsertProfile_insert_eq req st e he hne hfind]
  have hfind2 : (st.profiles ++ [insertedProfile req st e]).find?
      (fun p => p.email == e) = some (insertedProfile req st e) := by
    rw [find?_append_none _ _ _ hfind]
    exact List.find?_cons_of_pos _ (by simp [insertedProfile])
  have hcount1 : (st.profiles ++ [insertedProfile req st e]).countP
      (fun p => p.email == e) = 1 := by
    rw [List.countP_append, hcount0]
    simp [insertedProfile]
  have h2 := upsertProfile_update_eq req2
    { st with profiles := st.profiles ++ [insertedProfile req st e],
              nextProfileId := st.nextProfileId + 1 }
    e (insertedProfile req st e) he2 hne hfind2
  refine ⟨hfst1, ?_, ?_, ?_, ?_, ?_⟩
  · simp only [hsnd1]
    simp
  · simp only [hsnd1]
    exact hcount1
  · simp only [hsnd1, h2]
    rfl
  · simp only [hsnd1, h2]
    simp
  · simp only [hsnd1, h2]
    rw [List.countP_map]
    rw [List.countP_congr (fun x _ => by
      simp only [Function.comp_apply]
      rw [applyProfileUpdate_email])]
    exact hcount1

theorem upsert_create_then_update_witness :
    (upsertProfile reqProfAlice dbEmpty).1 = .ok 201 "Profile created" 1 ∧
    ((upsertProfile reqProfAlice dbEmpty).2).profiles.length = 1 ∧
    ((upsertProfile reqProfAlice dbEmpty).2).profiles.countP
      (fun p => p.email == "alice@fit.io") = 1 ∧
    (upsertProfile reqProfAlice (upsertProfile reqProfAlice dbEmpty).2).1 =
      .ok 200 "Profile updated" 1 ∧
    ((upsertProfile reqProfAlice (upsertProfile reqProfAlice dbEmpty).2).2).profiles.length =
      ((upsertProfile reqProfAlice dbEmpty).2).profiles.length ∧
    ((upsertProfile reqProfAlice (upsertProfile reqProfAlice dbEmpty).2).2).profiles.countP
      (fun p => p.email == "alice@fit.io") = 1 := by
  have h := upsert_create_then_update reqProfAlice reqProfAlice dbEmpty "alice@fit.io"
    rfl rfl (by decide) (by simp [dbEmpty])
  simpa [dbEmpty] using h

/-- C9: calling the profile upsert twice with identical arguments is
idempotent in effect — the store after the second call is exactly the store
after the first — while the second call is still reported as an update
(200 "Profile updated"), not as a creation and not as a no-op. -/
theorem upsert_idempotent_in_effect (req : ProfileRequest) (st : DB) (e : String)
    (he : req.email = some e) (hne : e ≠ "") :
    (upsertProfile req (upsertProfile req st).2).2 = (upsertProfile req st).2 ∧
    ∃ i, (upsertProfile req (upsertProfile req st).2).1 = .ok 200 "Profile updated" i := by
  cases hfind : st.profiles.find? (fun p => p.email == e) with
  | none =>
    have hall : ∀ p ∈ st.profiles, ¬ (p.email == e) = true :=
      fun p hp => List.find?_eq_none.mp hfind p hp
    have hsnd1 : (upsertProfile req st).2 =
        { st with profiles := st.profiles ++ [insertedProfile req st e],
                  nextProfileId := st.nextProfileId + 1 } := by
      rw [upsertProfile_insert_eq req st e he hne hfind]
    have hfind2 : (st.profiles ++ [insertedProfile req st e]).find?
        (fun p => p.email == e) = some (insertedProfile req st e) := by
      rw [find?_append_none _ _ _ hfind]
      exact List.find?_cons_of_pos _ (by simp [insertedProfile])
    have h2 := upsertProfile_update_eq req
      { st with profiles := st.profiles ++ [insertedProfile req st e],
                nextProfileId := st.nextProfileId + 1 }
      e (insertedProfile req st e) he hne hfind2
    have hmap : (st.profiles ++ [insertedProfile req st e]).map
        (applyProfileUpdate req st.now e) = st.profiles ++ [insertedProfile req st e] := by
      rw [List.map_append]
      have hleft : st.profiles.map (applyProfileUpdate req st.now e) = st.profiles := by
        rw [show st.profiles.map (applyProfileUpdate req st.now e) = st.profiles.map id from
          List.map_congr_left (fun p hp => applyProfileUpdate_of_ne req st.now e p (hall p hp)),
          List.map_id]
      have hright : [insertedProfile req st e].map (applyProfileUpdate req st.now e) =
          [insertedProfile req st e] := by
        show [applyProfileUpdate req st.now e (insertedProfile req st e)] = _
        rw [applyProfileUpdate_insertedProfile]
      rw [hleft, hright]
    constructor
    · simp only [hsnd1, h2]
      congr 1
    · exact ⟨(insertedProfile req st e).id, by simp only [hsnd1, h2]⟩
  | some p0 =>
    have hsnd1 : (upsertProfile req st).2 =
        { st with profiles := st.profiles.map (applyProfileUpdate req st.now e) } := by
      rw [upsertProfile_update_eq req st e p0 he hne hfind]
    have hfind2 : (st.profiles.map (applyProfileUpdate req st.now e)).find?
        (fun p => p.email == e) = some (applyProfileUpdate req st.now e p0) := by
      rw [find?_map_comm _ _ _ (fun a => by rw [applyProfileUpdate_email]), hfind]
      rfl
    have h2 := upsertProfile_update_eq req
      { st with profiles := st.profiles.map (applyProfileUpdate req st.now e) }
      e (applyProfileUpdate req st.now e p0) he hne hfind2
    have hmap : (st.profiles.map (applyProfileUpdate req st.now e)).map
        (applyProfileUpdate req st.now e) =
        st.profiles.map (applyProfileUpdate req st.now e) := by
      rw [List.map_map]
      exact List.map_congr_left (fun p _ => applyProfileUpdate_idem req st.now e p)
    constructor
    · simp only [hsnd1, h2]
      congr 1
    · exact ⟨(applyProfileUpdate req st.now e p0).id, by simp only [hsnd1, h2]⟩

theorem upsert_idempotent_in_effect_witness :
    (upsertProfile reqProfAlice (upsertProfile reqProfAlice dbAlice).2).2 =
      (upsertProfile reqProfAlice dbAlice).2 ∧
    ∃ i, (upsertProfile reqProfAlice (upsertProfile reqProfAlice dbAlice).2).1 =
      .ok 200 "Profile updated" i :=
  upsert_idempotent_in_effect reqProfAlice dbAlice "alice@fit.io" rfl (by decide)

theorem applyFlagUpdate_id (uid t : Nat) (p : UserProfile) :
    (applyFlagUpdate uid t p).id = p.id := by
  unfold applyFlagUpdate
  split_ifs <;> rfl

theorem applyFlagUpdate_completed_of_eq (uid t : Nat) (p : UserProfile)
    (h : p.id = uid) : (applyFlagUpdate uid t p).onboarding_completed = true := by
  unfold applyFlagUpdate
  rw [if_pos (by simp [h])]

theorem applyOnbUpdate_user_id (req : OnboardingRequest) (uid : Nat)
    (o : OnboardingResponse) : (applyOnbUpdate req uid o).user_id = o.user_id := by
  unfold applyOnbUpdate answersOf
  split_ifs <;> rfl

theorem applyOnbUpdate_of_eq (req : OnboardingRequest) (uid : Nat)
    (o : OnboardingResponse) (h : o.user_id = uid) :
    applyOnbUpdate req uid o = answersOf req o := by
  unfold applyOnbUpdate
  rw [if_pos (by simp [h])]

/-- C7: upserting an existing email overwrites the four mutable columns
unconditionally with the supplied values — even empty or absent ones — and
refreshes the update timestamp, while the matched row's id, email, creation
time and completion flag are unchanged, rows with other emails are entirely
untouched, the row count is unchanged, and the onboarding table is not
touched. -/
theorem upsert_update_frame (req : ProfileRequest) (st : DB) (e : String) (p0 : UserProfile)
    (he : req.email = some e) (hne : e ≠ "")
    (hp : st.profiles.find? (fun q => q.email == e) = some p0) :
    (upsertProfile req st).1 = .ok 200 "Profile updated" p0.id ∧
    ((upsertProfile req st).2).onboardings = st.onboardings ∧
    ((upsertProfile req st).2).profiles.length = st.profiles.length ∧
    ∀ i (hi : i < st.profiles.length)
        (hi2 : i < ((upsertProfile req st).2).profiles.length),
      ((st.profiles.get ⟨i, hi⟩).email = e →
        (((upsertProfile req st).2).profiles.get ⟨i, hi2⟩).firebase_uid = req.firebase_uid ∧
        (((upsertProfile req st).2).profiles.get ⟨i, hi2⟩).full_name = req.full_name ∧
        (((upsertProfile req st).2).profiles.get ⟨i, hi2⟩).gender = req.gender ∧
        (((upsertProfile req st).2).profiles.get ⟨i, hi2⟩).avatar_url = req.avatar_url ∧
        (((upsertProfile req st).2).profiles.get ⟨i, hi2⟩).updated_at = st.now ∧
        (((upsertProfile req st).2).profiles.get ⟨i, hi2⟩).id =
          (st.profiles.get ⟨i, hi⟩).id ∧
        (((upsertProfile req st).2).profiles.get ⟨i, hi2⟩).email =
          (st.profiles.get ⟨i, hi⟩).email ∧
        (((upsertProfile req st).2).profiles.get ⟨i, hi2⟩).created_at =
          (st.profiles.get ⟨i, hi⟩).created_at ∧
        (((upsertProfile req st).2).profiles.get ⟨i, hi2⟩).onboarding_completed =
          (st.profiles.get ⟨i, hi⟩).onboarding_completed) ∧
      ((st.profiles.get ⟨i, hi⟩).email ≠ e →
        ((upsertProfile req st).2).profiles.get ⟨i, hi2⟩ = st.profiles.get ⟨i, hi⟩) := by
  have hsnd : (upsertProfile req st).2 =
      { st with profiles := st.profiles.map (applyProfileUpdate req st.now e) } := by
    rw [upsertProfile_update_eq req st e p0 he hne hp]
  refine ⟨by rw [upsertProfile_update_eq req st e p0 he hne hp], by simp only [hsnd], ?_, ?_⟩
  · simp only [hsnd]
    simp
  · intro i hi hi2
    have hget : ((upsertProfile req st).2).profiles.get ⟨i, hi2⟩ =
        applyProfileUpdate req st.now e (st.profiles.get ⟨i, hi⟩) := by
      simp only [hsnd, List.get_eq_getElem, List.getElem_map]
    constructor
    · intro hmail
      rw [hget]
      unfold applyProfileUpdate
      rw [if_pos (by simp only [beq_iff_eq]; exact hmail)]
      exact ⟨rfl, rfl, rfl, rfl, rfl, rfl, rfl, rfl, rfl⟩
    · intro hmail
      rw [hget, applyProfileUpdate_of_ne req st.now e _
        (by simp only [beq_iff_eq]; exact hmail)]

theorem upsert_update_frame_witness :
    (upsertProfile reqProfAlice dbAliceOnb).1 = .ok 200 "Profile updated" 7 ∧
    ((upsertProfile reqProfAlice dbAliceOnb).2).onboardings = dbAliceOnb.onboardings ∧
    ((upsertProfile reqProfAlice dbAliceOnb).2).profiles.length =
      dbAliceOnb.profiles.length ∧
    ∀ i (hi : i < dbAliceOnb.profiles.length)
        (hi2 : i < ((upsertProfile reqProfAlice dbAliceOnb).2).profiles.length),
      ((dbAliceOnb.profiles.get ⟨i, hi⟩).email = "alice@fit.io" →
        (((upsertProfile reqProfAlice dbAliceOnb).2).profiles.get ⟨i, hi2⟩).firebase_uid =
          reqProfAlice.firebase_uid ∧
        (((upsertProfile reqProfAlice dbAliceOnb).2).profiles.get ⟨i, hi2⟩).full_name =
          reqProfAlice.full_name ∧
        (((upsertProfile reqProfAlice dbAliceOnb).2).profiles.get ⟨i, hi2⟩).gender =
          reqProfAlice.gender ∧
        (((upsertProfile reqProfAlice dbAliceOnb).2).profiles.get ⟨i, hi2⟩).avatar_url =
          reqProfAlice.avatar_url ∧
        (((upsertProfile reqProfAlice dbAliceOnb).2).profiles.get ⟨i, hi2⟩).updated_at =
          dbAliceOnb.now ∧
        (((upsertProfile reqProfAlice dbAliceOnb).2).profiles.get ⟨i, hi2⟩).id =
          (dbAliceOnb.profiles.get ⟨i, hi⟩).id ∧
        (((upsertProfile reqProfAlice dbAliceOnb).2).profiles.get ⟨i, hi2⟩).email =
          (dbAliceOnb.profiles.get ⟨i, hi⟩).email ∧
        (((upsertProfile reqProfAlice dbAliceOnb).2).profiles.get ⟨i, hi2⟩).created_at =
          (dbAliceOnb.profiles.get ⟨i, hi⟩).created_at ∧
        (((upsertProfile reqProfAlice dbAliceOnb).2).profiles.get ⟨i, hi2⟩).onboarding_completed =
          (dbAliceOnb.profiles.get ⟨i, hi⟩).onboarding_completed) ∧
      ((dbAliceOnb.profiles.get ⟨i, hi⟩).email ≠ "alice@fit.io" →
        ((upsertProfile reqProfAlice dbAliceOnb).2).profiles.get ⟨i, hi2⟩ =
          dbAliceOnb.profiles.get ⟨i, hi⟩) :=
  upsert_update_frame reqProfAlice dbAliceOnb "alice@fit.io" alice rfl (by decide)
    (by simp [dbAliceOnb, alice])

/-- C4: for a profile with no onboarding row yet, a successful submission
answers `{message: "Onboarding saved successfully", success: true}`,
appends exactly one onboarding row — which references the resolved
profile id — and flips the completion flag of that profile to true. -/
theorem submit_first_onboarding (req : OnboardingRequest) (st : DB) (e : String)
    (p0 : UserProfile)
    (he : req.email = some e) (hne : e ≠ "")
    (hp : st.profiles.find? (fun q => q.email == e) = some p0)
    (hno : ∀ o ∈ st.onboardings, o.user_id ≠ p0.id) :
    (submitOnboarding req st).1 = .saved "Onboarding saved successfully" true ∧
    ((submitOnboarding req st).2).onboardings.length = st.onboardings.length + 1 ∧
    ((submitOnboarding req st).2).onboardings.countP (fun o => o.user_id == p0.id) = 1 ∧
    (∀ q ∈ ((submitOnboarding req st).2).profiles, q.id = p0.id →
      q.onboarding_completed = true) ∧
    (∃ q ∈ ((submitOnboarding req st).2).profiles, q.id = p0.id) := by
  have ho : st.onboardings.find? (fun o => o.user_id == p0.id) = none :=
    List.find?_eq_none.mpr (fun o hoo => by simpa using hno o hoo)
  have heq := submitOnboardingF_insert_eq false req st e p0 he hne hp ho
  rw [if_neg Bool.false_ne_true] at heq
  have hzero : st.onboardings.countP (fun o => o.user_id == p0.id) = 0 :=
    List.countP_eq_zero.mpr (fun o hoo => by simpa using hno o hoo)
  refine ⟨?_, ?_, ?_, ?_, ?_⟩
  · simp only [submitOnboarding, heq]
  · simp only [submitOnboarding, heq]
    simp
  · simp only [submitOnboarding, heq]
    show (st.onboardings ++ [insertedOnboarding req st p0.id]).countP
      (fun o => o.user_id == p0.id) = 1
    rw [List.countP_append, hzero]
    simp [insertedOnboarding]
  · simp only [submitOnboarding, heq]
    intro q hq hid
    obtain ⟨q0, hq0, rfl⟩ := List.mem_map.mp hq
    rw [applyFlagUpdate_id] at hid
    exact applyFlagUpdate_completed_of_eq p0.id st.now q0 hid
  · simp only [submitOnboarding, heq]
    refine ⟨applyFlagUpdate p0.id st.now p0,
      List.mem_map_of_mem _ (List.mem_of_find?_eq_some hp), ?_⟩
    rw [applyFlagUpdate_id]

theorem submit_first_onboarding_witness :
    (submitOnboarding reqOnbAlice dbAlice).1 = .saved "Onboarding saved successfully" true ∧
    ((submitOnboarding reqOnbAlice dbAlice).2).onboardings.length =
      dbAlice.onboardings.length + 1 ∧
    ((submitOnboarding reqOnbAlice dbAlice).2).onboardings.countP
      (fun o => o.user_id == 7) = 1 ∧
    (∀ q ∈ ((submitOnboarding reqOnbAlice dbAlice).2).profiles, q.id = 7 →
      q.onboarding_completed = true) ∧
    (∃ q ∈ ((submitOnboarding reqOnbAlice dbAlice).2).profiles, q.id = 7) := by
  have h := submit_first_onboarding reqOnbAlice dbAlice "alice@fit.io" alice rfl
    (by decide) (by simp [dbAlice, alice]) (by simp [dbAlice])
  simpa [alice] using h

/-- C8: for a profile that already has an onboarding row, resubmission
answers success, inserts no new row (the table length and the number of
rows for that profile are unchanged — so a unique row stays unique), and
overwrites every answer column of that profile's row(s) with the newly
submitted values. -/
theorem submit_resubmit_overwrites (req : OnboardingRequest) (st : DB) (e : String)
    (p0 : UserProfile) (o0 : OnboardingResponse)
    (he : req.email = some e) (hne : e ≠ "")
    (hp : st.profiles.find? (fun q => q.email == e) = some p0)
    (ho : st.onboardings.find? (fun o => o.user_id == p0.id) = some o0) :
    (submitOnboarding req st).1 = .saved "Onboarding saved successfully" true ∧
    ((submitOnboarding req st).2).onboardings.length = st.onboardings.length ∧
    ((submitOnboarding req st).2).onboardings.countP (fun o => o.user_id == p0.id) =
      st.onboardings.countP (fun o => o.user_id == p0.id) ∧
    (∀ o ∈ ((submitOnboarding req st).2).onboardings, o.user_id = p0.id →
      o.fitness_goal = req.fitness_goal ∧
      o.current_fitness_level = req.current_fitness_level ∧
      o.workout_frequency = req.workout_frequency ∧
      o.diet_preference = req.diet_preference ∧
      o.motivation = req.motivation ∧
      o.biggest_challenge = req.biggest_challenge ∧
      o.how_found_us = req.how_found_us ∧
      o.feature_interest = serializeFeatureInterest req.feature_interest ∧
      o.willing_to_pay = req.willing_to_pay ∧
      o.price_range = req.price_range) ∧
    (∃ o ∈ ((submitOnboarding req st).2).onboardings, o.user_id = p0.id) := by
  have heq := submitOnboardingF_update_eq false req st e p0 o0 he hne hp ho
  rw [if_neg Bool.false_ne_true] at heq
  have huid : o0.user_id = p0.id := by
    have := List.find?_some ho
    simpa using this
  refine ⟨?_, ?_, ?_, ?_, ?_⟩
  · simp only [submitOnboarding, heq]
  · simp only [submitOnboarding, heq]
    simp
  · simp only [submitOnboarding, heq]
    show (st.onboardings.map (applyOnbUpdate req p0.id)).countP
      (fun o => o.user_id == p0.id) = _
    rw [List.countP_map]
    exact List.countP_congr (fun o _ => by
      simp only [Function.comp_apply]
      rw [applyOnbUpdate_user_id])
  · simp only [submitOnboarding, heq]
    intro o hoo hid
    obtain ⟨o1, ho1, rfl⟩ := List.mem_map.mp hoo
    rw [applyOnbUpdate_user_id] at hid
    rw [applyOnbUpdate_of_eq req p0.id o1 hid]
    exact ⟨rfl, rfl, rfl, rfl, rfl, rfl, rfl, rfl, rfl, rfl⟩
  · simp only [submitOnboarding, heq]
    refine ⟨applyOnbUpdate req p0.id o0,
      List.mem_map_of_mem _ (List.mem_of_find?_eq_some ho), ?_⟩
    rw [applyOnbUpdate_user_id]
    exact huid

theorem submit_resubmit_overwrites_witness :
    (submitOnboarding reqOnbAlice dbAliceOnb).1 =
      .saved "Onboarding saved successfully" true ∧
    ((submitOnboarding reqOnbAlice dbAliceOnb).2).onboardings.length =
      dbAliceOnb.onboardings.length ∧
    ((submitOnboarding reqOnbAlice dbAliceOnb).2).onboardings.countP
      (fun o => o.user_id == 7) = dbAliceOnb.onboardings.countP (fun o => o.user_id == 7) ∧
    (∀ o ∈ ((submitOnboarding reqOnbAlice dbAliceOnb).2).onboardings, o.user_id = 7 →
      o.fitness_goal = reqOnbAlice.fitness_goal ∧
      o.current_fitness_level = reqOnbAlice.current_fitness_level ∧
      o.workout_frequency = reqOnbAlice.workout_frequency ∧
      o.diet_preference = reqOnbAlice.diet_preference ∧
      o.motivation = reqOnbAlice.motivation ∧
      o.biggest_challenge = reqOnbAlice.biggest_challenge ∧
      o.how_found_us = reqOnbAlice.how_found_us ∧
      o.feature_interest = serializeFeatureInterest reqOnbAlice.feature_interest ∧
      o.willing_to_pay = reqOnbAlice.willing_to_pay ∧
      o.price_range = reqOnbAlice.price_range) ∧
    (∃ o ∈ ((submitOnboarding reqOnbAlice dbAliceOnb).2).onboardings, o.user_id = 7) := by
  have h := submit_resubmit_overwrites reqOnbAlice dbAliceOnb "alice@fit.io" alice onbAlice
    rfl (by decide) (by simp [dbAliceOnb, alice]) (by simp [dbAliceOnb, onbAlice, alice])
  simpa [alice] using h

/-- C5: the submission answers success exactly when all three store phases
(resolve, reconcile, mark-complete) succeed; a failing phase surfaces the
500 store error and aborts the remaining phases, and phases already
executed are not rolled back — in particular a failure after the answer
write but before the flag update leaves the answers saved while the
profiles table (hence the completion flag) is exactly as before. -/
theorem submit_three_steps_no_rollback
    (fr fc fm : Bool) (req : OnboardingRequest) (st : DB) (e : String) (p0 : UserProfile)
    (he : req.email = some e) (hne : e ≠ "")
    (hp : st.profiles.find? (fun q => q.email == e) = some p0) :
    ((submitOnboardingF fr fc fm req st).1 = .saved "Onboarding saved successfully" true ↔
      fr = false ∧ fc = false ∧ fm = false) ∧
    (fr = true → submitOnboardingF fr fc fm req st =
      (.storeFail 500 "Failed to save onboarding response" false, st)) ∧
    (fr = false → fc = true → submitOnboardingF fr fc fm req st =
      (.storeFail 500 "Failed to save onboarding response" false, st)) ∧
    (fr = false → fc = false → fm = true →
      (submitOnboardingF fr fc fm req st).1 =
        .storeFail 500 "Failed to save onboarding response" false ∧
      ((submitOnboardingF fr fc fm req st).2).profiles = st.profiles ∧
      (∃ o ∈ ((submitOnboardingF fr fc fm req st).2).onboardings, o.user_id = p0.id ∧
        o.feature_interest = serializeFeatureInterest req.feature_interest)) := by
  refine ⟨?_, ?_, ?_, ?_⟩
  · cases fr with
    | true =>
      have heq := submitOnboardingF_resolve_fail_eq fc fm req st e he hne
      simp [heq]
    | false =>
      cases fc with
      | true =>
        have heq := submitOnboardingF_reconcile_fail_eq fm req st e p0 he hne hp
        simp [heq]
      | false =>
        cases fm with
        | true =>
          cases ho : st.onboardings.find? (fun o => o.user_id == p0.id) with
          | none =>
            have heq := submitOnboardingF_insert_eq true req st e p0 he hne hp ho
            rw [if_pos rfl] at heq
            simp [heq]
          | some o0 =>
            have heq := submitOnboardingF_update_eq true req st e p0 o0 he hne hp ho
            rw [if_pos rfl] at heq
            simp [heq]
        | false =>
          cases ho : st.onboardings.find? (fun o => o.user_id == p0.id) with
          | none =>
            have heq := submitOnboardingF_insert_eq false req st e p0 he hne hp ho
            rw [if_neg Bool.false_ne_true] at heq
            simp [heq]
          | some o0 =>
            have heq := submitOnboardingF_update_eq false req st e p0 o0 he hne hp ho
            rw [if_neg Bool.false_ne_true] at heq
            simp [heq]
  · intro hfr
    subst hfr
    exact submitOnboardingF_resolve_fail_eq fc fm req st e he hne
  · intro hfr hfc
    subst hfr
    subst hfc
    exact submitOnboardingF_reconcile_fail_eq fm req st e p0 he hne hp
  · intro hfr hfc hfm
    subst hfr
    subst hfc
    subst hfm
    cases ho : st.onboardings.find? (fun o => o.user_id == p0.id) with
    | none =>
      have heq := submitOnboardingF_insert_eq true req st e p0 he hne hp ho
      rw [if_pos rfl] at heq
      refine ⟨by simp [heq], by simp [heq], ?_⟩
      refine ⟨insertedOnboarding req st p0.id, ?_, rfl, rfl⟩
      simp [heq]
    | some o0 =>
      have heq := submitOnboardingF_update_eq true req st e p0 o0 he hne hp ho
      rw [if_pos rfl] at heq
      have huid : o0.user_id = p0.id := by simpa using List.find?_some ho
      refine ⟨by simp [heq], by simp [heq], ?_⟩
      refine ⟨applyOnbUpdate req p0.id o0, ?_, ?_, ?_⟩
      · simp only [heq]
        exact List.mem_map_of_mem _ (List.mem_of_find?_eq_some ho)
      · rw [applyOnbUpdate_user_id]
        exact huid
      · rw [applyOnbUpdate_of_eq req p0.id o0 huid]
        rfl

theorem submit_three_steps_no_rollback_witness :
    (submitOnboardingF false false true reqOnbAlice dbAlice).1 =
      .storeFail 500 "Failed to save onboarding response" false ∧
    ((submitOnboardingF false false true reqOnbAlice dbAlice).2).profiles =
      dbAlice.profiles ∧
    (∃ o ∈ ((submitOnboardingF false false true reqOnbAlice dbAlice).2).onboardings,
      o.user_id = 7 ∧
      o.feature_interest = serializeFeatureInterest reqOnbAlice.feature_interest) := by
  have h := submit_three_steps_no_rollback false false true reqOnbAlice dbAlice
    "alice@fit.io" alice rfl (by decide) (by simp [dbAlice, alice])
  have h4 := h.2.2.2 rfl rfl rfl
  exact ⟨h4.1, h4.2.1, by simpa [alice] using h4.2.2⟩

/-! Helpers about the LEFT JOIN read path, used for the round-trip claim. -/

theorem leftJoinRow_fst {st : DB} {q : UserProfile}
    {pr : UserProfile × Option OnboardingResponse} (h : pr ∈ leftJoinRow st q) :
    pr.1 = q := by
  unfold leftJoinRow at h
  cases hfil : st.onboardings.filter (fun o => o.user_id == q.id) with
  | nil =>
    rw [hfil] at h
    have : pr = (q, none) := List.mem_singleton.mp h
    rw [this]
  | cons o os =>
    rw [hfil] at h
    obtain ⟨o1, _, hrfl⟩ := List.mem_map.mp h
    rw [← hrfl]

theorem leftJoinRow_exists_self (st : DB) (q : UserProfile) :
    ∃ pr ∈ leftJoinRow st q, pr.1 = q := by
  unfold leftJoinRow
  cases hfil : st.onboardings.filter (fun o => o.user_id == q.id) with
  | nil => exact ⟨(q, none), List.mem_singleton.mpr rfl, rfl⟩
  | cons o os => exact ⟨(q, some o), List.mem_map_of_mem _ (List.mem_cons_self o os), rfl⟩

theorem leftJoinRow_mem_resolve {st : DB} {q : UserProfile}
    {pr : UserProfile × Option OnboardingResponse} (h : pr ∈ leftJoinRow st q)
    (r : OnboardingResponse) (hr : r ∈ st.onboardings) (hru : r.user_id = q.id) :
    ∃ o, pr.2 = some o ∧ o ∈ st.onboardings ∧ o.user_id = q.id := by
  unfold leftJoinRow at h
  cases hfil : st.onboardings.filter (fun o => o.user_id == q.id) with
  | nil =>
    exfalso
    have hmem : r ∈ st.onboardings.filter (fun o => o.user_id == q.id) :=
      List.mem_filter.mpr ⟨hr, by simp [hru]⟩
    rw [hfil] at hmem
    cases hmem
  | cons o os =>
    rw [hfil] at h
    obtain ⟨o1, ho1, hrfl⟩ := List.mem_map.mp h
    have ho1' : o1 ∈ st.onboardings.filter (fun o => o.user_id == q.id) := by
      rw [hfil]
      exact ho1
    have hsplit := List.mem_filter.mp ho1'
    exact ⟨o1, by rw [← hrfl], hsplit.1, by simpa using hsplit.2⟩

/-- In any store, if some onboarding row carries profile id `uid` and every
such row stores the text `t`, then every listing row for a profile with
that id shows an onboarding row storing `t`, and any profile with that id
yields at least one listing row. -/
theorem getAllUsers_row_text (st2 : DB) (uid : Nat) (t : String)
    (hex : ∃ r ∈ st2.onboardings, r.user_id = uid)
    (hall : ∀ o ∈ st2.onboardings, o.user_id = uid → o.feature_interest = t) :
    (∀ pr ∈ getAllUsers st2, pr.1.id = uid →
      ∃ o, pr.2 = some o ∧ o.feature_interest = t) ∧
    ((∃ q ∈ st2.profiles, q.id = uid) → ∃ pr ∈ getAllUsers st2, pr.1.id = uid) := by
  constructor
  · intro pr hpr hid
    obtain ⟨q, _, hprq⟩ := joinAll_mem_split hpr
    have hfst := leftJoinRow_fst hprq
    rw [hfst] at hid
    obtain ⟨r, hr, hru⟩ := hex
    obtain ⟨o, ho2, homem, houid⟩ :=
      leftJoinRow_mem_resolve hprq r hr (by rw [hru, hid])
    exact ⟨o, ho2, hall o homem (by rw [houid, hid])⟩
  · rintro ⟨q, hq, hqid⟩
    obtain ⟨pr, hprmem, hprfst⟩ := leftJoinRow_exists_self st2 q
    refine ⟨pr, ?_, by rw [hprfst, hqid]⟩
    exact joinAll_mem_of (mem_sortByCreatedDesc.mpr hq) hprmem

/-- C1: a submitted feature-interest sequence is stored as its JSON
serialization; after a successful submission every onboarding row of that
profile carries exactly that text, which decodes back to the identical
ordered sequence, and the listing read path (profiles LEFT JOIN onboarding
answers) shows, for every row of that profile, an onboarding record whose
stored text decodes to the submitted sequence — with an omitted or empty
submission decoding to the empty sequence, never to an absent value. -/
theorem feature_interest_round_trip
    (req : OnboardingRequest) (st : DB) (e : String) (p0 : UserProfile)
    (he : req.email = some e) (hne : e ≠ "")
    (hp : st.profiles.find? (fun q => q.email == e) = some p0) :
    (submitOnboarding req st).1 = .saved "Onboarding saved successfully" true ∧
    (∃ o ∈ ((submitOnboarding req st).2).onboardings, o.user_id = p0.id) ∧
    (∀ o ∈ ((submitOnboarding req st).2).onboardings, o.user_id = p0.id →
      o.feature_interest = serializeFeatureInterest req.feature_interest ∧
      decodeFeatureInterest o.feature_interest = some (req.feature_interest.getD [])) ∧
    (∀ pr ∈ getAllUsers (submitOnboarding req st).2, pr.1.id = p0.id →
      ∃ o, pr.2 = some o ∧
        decodeFeatureInterest o.feature_interest = some (req.feature_interest.getD [])) ∧
    (∃ pr ∈ getAllUsers (submitOnboarding req st).2, pr.1.id = p0.id) := by
  cases ho : st.onboardings.find? (fun o => o.user_id == p0.id) with
  | none =>
    have heq := submitOnboardingF_insert_eq false req st e p0 he hne hp ho
    rw [if_neg Bool.false_ne_true] at heq
    have hnold : ∀ o ∈ st.onboardings, ¬ (o.user_id == p0.id) = true :=
      List.find?_eq_none.mp ho
    have hex : ∃ r ∈ ((submitOnboarding req st).2).onboardings, r.user_id = p0.id := by
      simp only [submitOnboarding, heq]
      exact ⟨insertedOnboarding req st p0.id, by simp, rfl⟩
    have hall : ∀ o ∈ ((submitOnboarding req st).2).onboardings, o.user_id = p0.id →
        o.feature_interest = serializeFeatureInterest req.feature_interest := by
      simp only [submitOnboarding, heq]
      intro o hoo hid
      rcases List.mem_append.mp hoo with hold | hnew
      · exact absurd (by simp [hid]) (hnold o hold)
      · rw [List.mem_singleton.mp hnew]
        rfl
    have hprof : ∃ q ∈ ((submitOnboarding req st).2).profiles, q.id = p0.id := by
      simp only [submitOnboarding, heq]
      exact ⟨applyFlagUpdate p0.id st.now p0,
        List.mem_map_of_mem _ (List.mem_of_find?_eq_some hp),
        applyFlagUpdate_id p0.id st.now p0⟩
    have hjoin := getAllUsers_row_text ((submitOnboarding req st).2) p0.id
      (serializeFeatureInterest req.feature_interest) hex hall
    refine ⟨by simp only [submitOnboarding, heq], hex, ?_, ?_, hjoin.2 hprof⟩
    · intro o hoo hid
      refine ⟨hall o hoo hid, ?_⟩
      rw [hall o hoo hid]
      exact decode_serialize req.feature_interest
    · intro pr hpr hid
      obtain ⟨o, ho2, hot⟩ := hjoin.1 pr hpr hid
      refine ⟨o, ho2, ?_⟩
      rw [hot]
      exact decode_serialize req.feature_interest
  | some o0 =>
    have heq := submitOnboardingF_update_eq false req st e p0 o0 he hne hp ho
    rw [if_neg Bool.false_ne_true] at heq
    have huid : o0.user_id = p0.id := by simpa using List.find?_some ho
    have hex : ∃ r ∈ ((submitOnboarding req st).2).onboardings, r.user_id = p0.id := by
      simp only [submitOnboarding, heq]
      refine ⟨applyOnbUpdate req p0.id o0,
        List.mem_map_of_mem _ (List.mem_of_find?_eq_some ho), ?_⟩
      rw [applyOnbUpdate_user_id]
      exact huid
    have hall : ∀ o ∈ ((submitOnboarding req st).2).onboardings, o.user_id = p0.id →
        o.feature_interest = serializeFeatureInterest req.feature_interest := by
      simp only [submitOnboarding, heq]
      intro o hoo hid
      obtain ⟨o1, ho1, hrfl⟩ := List.mem_map.mp hoo
      rw [← hrfl] at hid ⊢
      rw [applyOnbUpdate_user_id] at hid
      rw [applyOnbUpdate_of_eq req p0.id o1 hid]
      rfl
    have hprof : ∃ q ∈ ((submitOnboarding req st).2).profiles, q.id = p0.id := by
      simp only [submitOnboarding, heq]
      exact ⟨applyFlagUpdate p0.id st.now p0,
        List.mem_map_of_mem _ (List.mem_of_find?_eq_some hp),
        applyFlagUpdate_id p0.id st.now p0⟩
    have hjoin := getAllUsers_row_text ((submitOnboarding req st).2) p0.id
      (serializeFeatureInterest req.feature_interest) hex hall
    refine ⟨by simp only [submitOnboarding, heq], hex, ?_, ?_, hjoin.2 hprof⟩
    · intro o hoo hid
      refine ⟨hall o hoo hid, ?_⟩
      rw [hall o hoo hid]
      exact decode_serialize req.feature_interest
    · intro pr hpr hid
      obtain ⟨o, ho2, hot⟩ := hjoin.1 pr hpr hid
      refine ⟨o, ho2, ?_⟩
      rw [hot]
      exact decode_serialize req.feature_interest

theorem feature_interest_round_trip_witness :
    (submitOnboarding reqOnbAlice dbAlice).1 = .saved "Onboarding saved successfully" true ∧
    (∃ o ∈ ((submitOnboarding reqOnbAlice dbAlice).2).onboardings, o.user_id = 7) ∧
    (∀ o ∈ ((submitOnboarding reqOnbAlice dbAlice).2).onboardings, o.user_id = 7 →
      o.feature_interest = serializeFeatureInterest reqOnbAlice.feature_interest ∧
      decodeFeatureInterest o.feature_interest =
        some (reqOnbAlice.feature_interest.getD [])) ∧
    (∀ pr ∈ getAllUsers (submitOnboarding reqOnbAlice dbAlice).2, pr.1.id = 7 →
      ∃ o, pr.2 = some o ∧
        decodeFeatureInterest o.feature_interest =
          some (reqOnbAlice.feature_interest.getD [])) ∧
    (∃ pr ∈ getAllUsers (submitOnboarding reqOnbAlice dbAlice).2, pr.1.id = 7) := by
  have h := feature_interest_round_trip reqOnbAlice dbAlice "alice@fit.io" alice rfl
    (by decide) (by simp [dbAlice, alice])
  simpa [alice] using h

end ReddyFit
